import Mathlib

/-!
Shallow embedding of `packaging/linux/appimage/create_appimage.py` (the only
source file of the diskfmt repository) and proofs about it.

The script is a linear orchestration of filesystem operations and external
process invocations.  We embed it as a pure function from an oracle
environment (`Env`: which files exist, what every download attempt does,
which exit code each external process returns) to a `Run`: the process exit
code, an ordered trace of observable effects (`Event`), and the lines printed
to stdout / stderr.  Pure helpers of the script (`ensure_newline_at_end`,
the desktop-file version stamping, `read_version_from_cargo` on parsed
manifest data, path/name computations) are embedded directly as Lean
functions on `List Char` / `String`.

External primitives that the script calls but does not define (pathlib's
`Path.parent` / `Path.name` on POSIX paths, the parsed result of
`toml.loads`) are modelled as small Lean functions with their documented
behaviour; the repository root is represented by the abstract path "/repo".
-/

/-! ## Strings and substring counting (used by the desktop-file stamping) -/

/-- `leadsList k l` is true when the list `k` is an initial segment of `l`
(the structural analogue of Python `str.startswith` used by substring
search below). -/
def leadsList : List Char → List Char → Bool
  | [], _ => true
  | _ :: _, [] => false
  | a :: as, b :: bs => if a = b then leadsList as bs else false

/-- Number of positions of `l` at which the pattern `key` occurs
(occurrences may overlap).  For nonempty `key` this counts exactly the
substring occurrences of `key` in `l`. -/
def countOcc (key : List Char) : List Char → Nat
  | [] => 0
  | c :: rest => (if leadsList key (c :: rest) then 1 else 0) + countOcc key rest

/-- Python's `key in s` substring test, on char lists. -/
def containsSub (key : List Char) : List Char → Bool
  | [] => leadsList key []
  | c :: rest => leadsList key (c :: rest) || containsSub key rest

/-- `str.startswith` on `String`s (via the underlying char lists). -/
def strLeads (pre s : String) : Bool := leadsList pre.data s.data

/-- Models POSIX `pathlib.Path(p).name`: the part after the last slash. -/
def baseName (p : String) : String :=
  String.mk ((p.data.reverse.takeWhile (fun c => c ≠ '/')).reverse)

/-- Models POSIX `pathlib.Path(p).parent`: the path with its last component
removed ("." when there is no slash, "/" for a top-level path). -/
def parentPath (p : String) : String :=
  match p.data.reverse.dropWhile (fun c => c ≠ '/') with
  | [] => "."
  | [_] => "/"
  | _ :: rest => String.mk rest.reverse

/-! ## Pure helpers of the script -/

/-- `ensure_newline_at_end` (create_appimage.py lines 73-78), as the pure
content transformation it performs on the file's bytes: append a newline
when the content is nonempty and does not already end with one. -/
def ensure_newline_at_end (data : List Char) : List Char :=
  if data ≠ [] ∧ data.getLast? ≠ some '\n' then data ++ ['\n'] else data

/-- The version-stamp key `"X-AppImage-Version="` searched for in the staged
desktop file (line 158), written out as a char list. -/
def stampKey : List Char :=
  ['X', '-', 'A', 'p', 'p', 'I', 'm', 'a', 'g', 'e', '-', 'V', 'e', 'r', 's', 'i', 'o', 'n', '=']

/-- The desktop-file stamping of main (lines 158-162) as a pure content
transformation: if the copied file does not contain `stampKey`, first apply
`ensure_newline_at_end`, then append the line `X-AppImage-Version=<version>`
(with a trailing newline, as the f-string on line 161 does). -/
def stampDesktop (version content : List Char) : List Char :=
  if containsSub stampKey content then content
  else ensure_newline_at_end content ++ stampKey ++ version ++ ['\n']

/-- A parsed TOML value, as far as this script inspects it: `toml.loads`
yields nested tables whose leaves include strings.  Values of other shapes
(which cannot arise as the `version` field of a manifest this script
targets) are collapsed into `other` and treated as absent. -/
inductive TomlValue
  | str (s : String)
  | table (entries : List (String × TomlValue))
  | other

/-- `dict.get` on a parsed TOML table. -/
def tomlGet (entries : List (String × TomlValue)) (key : String) : Option TomlValue :=
  match entries.find? (fun kv => kv.1 == key) with
  | some kv => some kv.2
  | none => none

/-- `read_version_from_cargo` (lines 31-36) over the parsed manifest:
`none` for the manifest argument models `Cargo.toml` not being a file;
otherwise the function returns `data.get("package", {}).get("version")`,
i.e. the `version` string nested under the `package` table. -/
def read_version_from_cargo (cargoToml : Option (List (String × TomlValue))) : Option String :=
  match cargoToml with
  | none => none
  | some data =>
    match tomlGet data "package" with
    | some (TomlValue.table t) =>
      match tomlGet t "version" with
      | some (TomlValue.str s) => some s
      | _ => none
    | _ => none

/-- Python truthiness of an optional string (`if not version:`): `None` and
the empty string are falsy. -/
def pyFalsy : Option String → Bool
  | none => true
  | some s => s = ""

/-- Version resolution of main (lines 97-102): take `VERSION` from the
environment; if falsy, fall back to `read_version_from_cargo`; `none` here
means the script dies with "Failed to read version from Cargo.toml". -/
def resolveVersion (versionEnv : Option String)
    (cargoToml : Option (List (String × TomlValue))) : Option String :=
  let v := if pyFalsy versionEnv then read_version_from_cargo cargoToml else versionEnv
  if pyFalsy v then none else v

/-! ## Fixed paths of the run

The script resolves every path from the directory of its own file; we write
the repository root as the abstract path "/repo". -/

def rootDir : String := "/repo"

def scriptDirStr : String := rootDir ++ "/packaging/linux/appimage"

def buildDirStr : String := rootDir ++ "/target"

def appimageDirStr : String := buildDirStr ++ "/appimage"

/-- The staging directory `AppDir` (line 88). -/
def appdirStr : String := appimageDirStr ++ "/AppDir"

def binPathStr : String := buildDirStr ++ "/release/diskfmt"

def desktopFileStr : String := scriptDirStr ++ "/diskfmt.desktop"

def metadataFileStr : String := rootDir ++ "/packaging/linux/diskfmt.metainfo.xml"

def desktopTargetStr : String := appdirStr ++ "/usr/share/applications/diskfmt.desktop"

/-- The icon resolutions (line 23). -/
def SIZES : List Nat := [16, 32, 48, 64, 128, 256]

/-- The themed icon directory for a resolution (line 177). -/
def iconDirStr (size : Nat) : String :=
  appdirStr ++ "/usr/share/icons/hicolor/" ++ toString size ++ "x" ++ toString size ++ "/apps"

def linuxdeployUrlDefault (arch : String) : String :=
  "https://github.com/linuxdeploy/linuxdeploy/releases/download/continuous/linuxdeploy-"
    ++ arch ++ ".AppImage"

def appimagetoolUrlDefault (arch : String) : String :=
  "https://github.com/AppImage/AppImageKit/releases/download/continuous/appimagetool-"
    ++ arch ++ ".AppImage"

/-! ## Observable effects -/

/-- One observable effect of the run, in program order. -/
inductive Event
  | mkdirP (path : String)
  | connect (url : String) (attempt : Nat)
  | openWrite (path : String)
  | writeBody (path : String)
  | sleepSecs (n : Nat)
  | chmodExec (path : String)
  | cargoBuild
  | rmtree (path : String)
  | copy2 (src dst : String)
  | writeFile (path : String) (content : List Char)
  | symlinkTo (linkPath target : String)
  | convertRun (src : String) (size : Nat) (dst : String)
  | linuxdeployRun (appdir executable desktopFile iconFile : String)
  | unlink (path : String)
  | appimagetoolRun (args : List String)
  | printCreated (path : String)
deriving DecidableEq, Repr

/-- A file on disk: its content and its permission mode bits. -/
structure FileSt where
  content : List Char
  mode : Nat
deriving DecidableEq, Repr

/-- Mode bits of a freshly created file (0o644; the exact value is
irrelevant to every claim, only that `ensure_executable` adds 0o111). -/
def createMode : Nat := 420

/-- `ensure_executable` (lines 39-41): or the executable bits
`S_IXUSR | S_IXGRP | S_IXOTH` (0o111 = 73) into the current mode. -/
def ensure_executable (f : FileSt) : FileSt :=
  { content := f.content, mode := f.mode.lor 73 }

/-- `target.open("wb")` then writing `newContent`: creates the file with
`createMode` when absent, otherwise truncates in place (mode preserved). -/
def openTruncate (file : Option FileSt) (newContent : List Char) : FileSt :=
  match file with
  | none => { content := newContent, mode := createMode }
  | some f => { content := newContent, mode := f.mode }

/-- What one download attempt does, as decided by the network oracle:
the connection (`urllib.request.urlopen`) fails, or the connection succeeds
but reading/writing the body fails leaving `partialContent` in the target,
or the whole body is read into the target. -/
inductive AttemptOutcome
  | connectFail (err : String)
  | bodyFail (err : String) (partialContent : List Char)
  | ok (body : List Char)

/-- Result of `download_tool`: `exit = some c` when the script terminated
(via `die` or an uncaught exception) with exit code `c`, the target file's
state afterwards, the effect trace and the printed lines. -/
structure DLRun where
  exit : Option Nat
  file : Option FileSt
  events : List Event
  outLines : List String
  errLines : List String
deriving Repr

/-- The retry print of line 65. -/
def retryMsg (attempt attempts : Nat) : String :=
  "Download failed (attempt " ++ toString attempt ++ "/" ++ toString attempts ++ "), retrying…"

/-- The `for attempt in range(1, attempts + 1)` loop of `download_tool`
(lines 56-68), over the remaining attempt numbers.  Each iteration asks the
oracle what its attempt does:
`ok` completes the `with urlopen(url) as resp, target.open("wb") as out`
block (connect, open-truncate, write whole body) and breaks out of the loop;
a failure on the last attempt calls `die` (exit 1); a failure on an earlier
attempt prints the retry line, sleeps 2 seconds and continues.  The target
file is opened (created/truncated) only when the connection succeeded, so a
`connectFail` leaves it untouched while a `bodyFail` leaves the partial
body in it. -/
def dlLoop (oracle : Nat → AttemptOutcome) (url target : String) (attempts : Nat) :
    List Nat → Option FileSt → DLRun
  | [], file => ⟨none, file, [], [], []⟩
  | a :: rest, file =>
    match oracle a with
    | AttemptOutcome.ok body =>
        ⟨none, some (openTruncate file body),
         [Event.connect url a, Event.openWrite target, Event.writeBody target], [], []⟩
    | AttemptOutcome.connectFail err =>
        if a = attempts then
          ⟨some 1, file, [Event.connect url a], [],
           ["Failed to download " ++ url ++ ": " ++ err]⟩
        else
          let r := dlLoop oracle url target attempts rest file
          ⟨r.exit, r.file, Event.connect url a :: Event.sleepSecs 2 :: r.events,
           retryMsg a attempts :: r.outLines, r.errLines⟩
    | AttemptOutcome.bodyFail err partialContent =>
        let file1 := some (openTruncate file partialContent)
        if a = attempts then
          ⟨some 1, file1, [Event.connect url a, Event.openWrite target], [],
           ["Failed to download " ++ url ++ ": " ++ err]⟩
        else
          let r := dlLoop oracle url target attempts rest file1
          ⟨r.exit, r.file,
           Event.connect url a :: Event.openWrite target :: Event.sleepSecs 2 :: r.events,
           retryMsg a attempts :: r.outLines, r.errLines⟩

/-- `download_tool` (lines 44-70).  `targetFile` is the state of the target
path before the call (`none` = absent).  When the target is already a file
the function returns at once (no print, no effect, file untouched).
Otherwise it prints the download banner, runs the 3-attempt loop, and on
loop completion (break or fall-through) runs `ensure_executable` on the
target (the fall-through-with-no-file case, unreachable for 3 attempts,
models the `FileNotFoundError` that `target.stat()` would raise). -/
def download_tool (url : String) (targetFile : Option FileSt)
    (oracle : Nat → AttemptOutcome) (target : String) : DLRun :=
  match targetFile with
  | some f => ⟨none, some f, [], [], []⟩
  | none =>
    let r0 := dlLoop oracle url target 3 [1, 2, 3] none
    let r := { r0 with
      outLines := ("Downloading " ++ baseName target ++ " from " ++ url) :: r0.outLines }
    match r.exit with
    | some _ => r
    | none =>
      match r.file with
      | some f =>
          { r with file := some (ensure_executable f),
                   events := r.events ++ [Event.chmodExec target] }
      | none => { r with exit := some 1, errLines := r.errLines ++ ["FileNotFoundError"] }

/-- The icon loop of main (lines 176-179): for each size create the themed
icon directory and invoke the resize tool; a nonzero `convert` exit raises
`ProcessExecutionError` (carried as `some retcode`), which aborts the loop. -/
def iconLoop (convertExit : Nat → Nat) (iconSrc : String) : List Nat → List Event × Option Nat
  | [] => ([], none)
  | s :: rest =>
    let dir := iconDirStr s
    let evs := [Event.mkdirP dir, Event.convertRun iconSrc s (dir ++ "/diskfmt.png")]
    if convertExit s ≠ 0 then (evs, some (convertExit s))
    else
      let r := iconLoop convertExit iconSrc rest
      (evs ++ r.1, r.2)

/-! ## The whole run -/

/-- The oracle environment of one run: what the filesystem, the network and
every external process do when the script consults them. -/
structure Env where
  /-- `convert` resolvable on PATH (plumbum import, line 19 / check line 125). -/
  convertOnPath : Bool
  /-- `cargo` resolvable on PATH (plumbum import, line 20). -/
  cargoOnPath : Bool
  /-- `os.uname().machine`. -/
  unameMachine : String
  archEnv : Option String
  iconSrcEnv : Option String
  versionEnv : Option String
  /-- Parsed `Cargo.toml` (`none` = not a file). -/
  cargoToml : Option (List (String × TomlValue))
  linuxdeployEnv : Option String
  appimagetoolEnv : Option String
  linuxdeployUrlEnv : Option String
  appimagetoolUrlEnv : Option String
  outputEnv : Option String
  desktopFileExists : Bool
  iconExists : Bool
  metadataExists : Bool
  /-- Content of the desktop-entry source file. -/
  desktopContent : List Char
  /-- State of the linuxdeploy target path before the run (`none` = absent). -/
  linuxdeployFile : Option FileSt
  /-- State of the appimagetool target path before the run. -/
  appimagetoolFile : Option FileSt
  dlOracle1 : Nat → AttemptOutcome
  dlOracle2 : Nat → AttemptOutcome
  /-- `bin_path.is_file() and os.access(bin_path, os.X_OK)` (line 143). -/
  binOk : Bool
  cargoBuildExit : Nat
  /-- Exit code of the `convert` resize invocation, per size. -/
  convertExit : Nat → Nat
  linuxdeployExit : Nat
  appimagetoolExit : Nat
  /-- `output.exists()` at line 200. -/
  outputExists : Bool

/-- Result of a whole script run: process exit code, effect trace, printed
stdout and stderr lines. -/
structure Run where
  exit : Nat
  events : List Event
  outLines : List String
  errLines : List String
deriving Repr

/-- `die` (lines 26-28): message on stderr, `SystemExit(1)`. -/
def dieRun (events : List Event) (outL : List String) (msg : String) : Run :=
  ⟨1, events, outL, [msg]⟩

/-- The message `die` in `__main__` builds from a `ProcessExecutionError`
(line 213); only the prefix embedding the tool's exit code is modelled. -/
def procFailMsg (retcode : Nat) : String :=
  "Command failed (" ++ toString retcode ++ ")"

def resolvedArch (e : Env) : String := e.archEnv.getD e.unameMachine

def resolvedIconSrc (e : Env) : String := e.iconSrcEnv.getD (rootDir ++ "/assets/icon.png")

def resolvedLdPath (e : Env) : String :=
  e.linuxdeployEnv.getD (appimageDirStr ++ "/linuxdeploy-" ++ resolvedArch e ++ ".AppImage")

def resolvedAtPath (e : Env) : String :=
  e.appimagetoolEnv.getD (appimageDirStr ++ "/appimagetool-" ++ resolvedArch e ++ ".AppImage")

def resolvedLdUrl (e : Env) : String :=
  e.linuxdeployUrlEnv.getD (linuxdeployUrlDefault (resolvedArch e))

def resolvedAtUrl (e : Env) : String :=
  e.appimagetoolUrlEnv.getD (appimagetoolUrlDefault (resolvedArch e))

/-- Output path resolution (lines 194-198). -/
def resolvedOutput (e : Env) (version : String) : String :=
  e.outputEnv.getD
    (appimageDirStr ++ "/diskfmt-" ++ version ++ "-" ++ resolvedArch e ++ ".AppImage")

/-- The first `download_tool` call of main (line 139), with its resolved
URL and target. -/
def d1run (e : Env) : DLRun :=
  download_tool (resolvedLdUrl e) e.linuxdeployFile e.dlOracle1 (resolvedLdPath e)

/-- The second `download_tool` call of main (line 140). -/
def d2run (e : Env) : DLRun :=
  download_tool (resolvedAtUrl e) e.appimagetoolFile e.dlOracle2 (resolvedAtPath e)

/-- The write events of the stamping step (lines 158-162): when the key is
absent, `ensure_newline_at_end` may write once (line 78) and the stamp
append writes once (line 160). -/
def stampEvs (version content : List Char) : List Event :=
  if containsSub stampKey content then []
  else
    (if content ≠ [] ∧ content.getLast? ≠ some '\n' then
       [Event.writeFile desktopTargetStr (content ++ ['\n'])]
     else [])
    ++ [Event.writeFile desktopTargetStr (stampDesktop version content)]

/-- `main` (lines 81-206), as a function from the oracle environment to the
run result.  The traversal mirrors the source line by line: version
resolution (97-102) and its fatal check, the tool/input precondition checks
(123-134), `appimage_dir.mkdir` (136), the two `download_tool` calls
(139-140), the conditional release build (143-146), the staging sequence
(149-184: rmtree, applications dir, desktop copy + stamp, symlink,
metainfo, icon loop, root icon copy), the linuxdeploy invocation (187-192),
output resolution and deletion (194-201), the appimagetool invocation (204)
and the final print (206).  A `ProcessExecutionError` from any invocation is
turned into `die("Command failed (retcode)...")` by `__main__`
(lines 209-213). -/
def mainRun (e : Env) : Run :=
  let iconSrc := resolvedIconSrc e
  match resolveVersion e.versionEnv e.cargoToml with
  | none => dieRun [] [] "Failed to read version from Cargo.toml"
  | some version =>
    if e.convertOnPath = false then
      dieRun [] [] "ImageMagick 'convert' is required to generate icons"
    else if e.desktopFileExists = false then
      dieRun [] [] ("Desktop file not found: " ++ desktopFileStr)
    else if e.iconExists = false then
      dieRun [] [] ("Icon not found: " ++ iconSrc)
    else if e.metadataExists = false then
      dieRun [] [] ("Metadata not found: " ++ metadataFileStr)
    else
      let ev0 : List Event := [Event.mkdirP appimageDirStr]
      let d1 := d1run e
      match d1.exit with
      | some c => ⟨c, ev0 ++ d1.events, d1.outLines, d1.errLines⟩
      | none =>
        let d2 := d2run e
        let ev1 := ev0 ++ d1.events ++ d2.events
        let out1 := d1.outLines ++ d2.outLines
        match d2.exit with
        | some c => ⟨c, ev1, out1, d2.errLines⟩
        | none =>
          let buildEvs : List Event := if e.binOk then [] else [Event.cargoBuild]
          let out2 := out1 ++
            (if e.binOk then []
             else ["Building release binary (missing at " ++ binPathStr ++ ")"])
          let ev2 := ev1 ++ buildEvs
          if e.binOk = false ∧ e.cargoBuildExit ≠ 0 then
            ⟨1, ev2, out2, [procFailMsg e.cargoBuildExit]⟩
          else
            let ev3 := ev2 ++
              Event.rmtree appdirStr ::
              Event.mkdirP (appdirStr ++ "/usr/share/applications") ::
              Event.copy2 desktopFileStr desktopTargetStr ::
              (stampEvs version.data e.desktopContent ++
               [Event.symlinkTo (appdirStr ++ "/diskfmt.desktop")
                  "usr/share/applications/diskfmt.desktop",
                Event.mkdirP (appdirStr ++ "/usr/share/metainfo"),
                Event.copy2 metadataFileStr
                  (appdirStr ++ "/usr/share/metainfo/diskfmt.metainfo.xml")])
            let ic := iconLoop e.convertExit iconSrc SIZES
            let ev4 := ev3 ++ ic.1
            match ic.2 with
            | some c => ⟨1, ev4, out2, [procFailMsg c]⟩
            | none =>
              let ev5 := ev4 ++
                [Event.copy2 (iconDirStr 256 ++ "/diskfmt.png") (appdirStr ++ "/diskfmt.png"),
                 Event.linuxdeployRun appdirStr binPathStr desktopTargetStr
                   (appdirStr ++ "/diskfmt.png")]
              if e.linuxdeployExit ≠ 0 then
                ⟨1, ev5, out2, [procFailMsg e.linuxdeployExit]⟩
              else
                let output := resolvedOutput e version
                let ev6 := ev5 ++
                  Event.mkdirP (parentPath output) ::
                  ((if e.outputExists then [Event.unlink output] else []) ++
                   [Event.appimagetoolRun [appdirStr, output]])
                if e.appimagetoolExit ≠ 0 then
                  ⟨1, ev6, out2, [procFailMsg e.appimagetoolExit]⟩
                else
                  ⟨0, ev6 ++ [Event.printCreated output],
                   out2 ++ ["Created " ++ output], []⟩

/-- The whole script: the module-level `from plumbum.cmd import ...` lines
(19-20) raise `CommandNotFound` before `main` even starts when `convert` or
`cargo` is not on PATH (uncaught exception: exit code 1, traceback on
stderr); otherwise `main` runs under the `__main__` wrapper. -/
def scriptRun (e : Env) : Run :=
  if e.convertOnPath = false then
    ⟨1, [], [], ["CommandNotFound: convert"]⟩
  else if e.cargoOnPath = false then
    ⟨1, [], [], ["CommandNotFound: cargo"]⟩
  else mainRun e

/-! ## Predicates on events -/

/-- Whether a path lies inside the staging directory `AppDir` (is `AppDir`
itself or strictly below it). -/
def inAppDir (p : String) : Bool := strLeads (appdirStr ++ "/") p || p = appdirStr

/-- Whether an event creates or writes content inside the staging
directory. -/
def createsInAppDir : Event → Bool
  | Event.mkdirP p => inAppDir p
  | Event.openWrite p => inAppDir p
  | Event.writeBody p => inAppDir p
  | Event.copy2 _ dst => inAppDir dst
  | Event.writeFile p _ => inAppDir p
  | Event.symlinkTo p _ => inAppDir p
  | Event.convertRun _ _ dst => inAppDir dst
  | _ => false

/-- Whether an event is the invocation of one of the two helper tools. -/
def isToolRun : Event → Bool
  | Event.linuxdeployRun _ _ _ _ => true
  | Event.appimagetoolRun _ => true
  | _ => false

/-- The event kinds `download_tool` with target `t` can emit. -/
def isDlEvent (t : String) : Event → Bool
  | Event.connect _ _ => true
  | Event.sleepSecs _ => true
  | Event.openWrite p => p = t
  | Event.writeBody p => p = t
  | Event.chmodExec p => p = t
  | _ => false

/-- The event kinds the icon loop can emit. -/
def isIconEvent : Event → Bool
  | Event.mkdirP _ => true
  | Event.convertRun _ _ _ => true
  | _ => false

/-- In the trace `tr`, nothing is created in `AppDir` and no helper tool is
invoked before the `rmtree` of `AppDir`: every decomposition
`tr = pre ++ suf` whose `pre` does not contain the `rmtree` has a `pre`
free of staging-creation and tool-invocation events. -/
def cleanBeforeRemoval (tr : List Event) : Prop :=
  ∀ pre suf, tr = pre ++ suf → Event.rmtree appdirStr ∉ pre →
    ∀ ev ∈ pre, createsInAppDir ev = false ∧ isToolRun ev = false

/-- The events of the icon loop when every resize invocation succeeds
(lines 176-179), written out for the six sizes of `SIZES`. -/
def iconEvents (src : String) : List Event :=
  [Event.mkdirP (iconDirStr 16), Event.convertRun src 16 (iconDirStr 16 ++ "/diskfmt.png"),
   Event.mkdirP (iconDirStr 32), Event.convertRun src 32 (iconDirStr 32 ++ "/diskfmt.png"),
   Event.mkdirP (iconDirStr 48), Event.convertRun src 48 (iconDirStr 48 ++ "/diskfmt.png"),
   Event.mkdirP (iconDirStr 64), Event.convertRun src 64 (iconDirStr 64 ++ "/diskfmt.png"),
   Event.mkdirP (iconDirStr 128), Event.convertRun src 128 (iconDirStr 128 ++ "/diskfmt.png"),
   Event.mkdirP (iconDirStr 256), Event.convertRun src 256 (iconDirStr 256 ++ "/diskfmt.png")]

/-- The full event trace of a successful run up to (and including) the
`mkdir` of the output's parent directory — everything before the optional
deletion of a pre-existing output file and the appimagetool invocation. -/
def preEvents (e : Env) (v : String) : List Event :=
  Event.mkdirP appimageDirStr :: ((d1run e).events ++ (d2run e).events ++
    (Event.rmtree appdirStr ::
     Event.mkdirP (appdirStr ++ "/usr/share/applications") ::
     Event.copy2 desktopFileStr desktopTargetStr ::
     (stampEvs v.data e.desktopContent ++
      [Event.symlinkTo (appdirStr ++ "/diskfmt.desktop")
         "usr/share/applications/diskfmt.desktop",
       Event.mkdirP (appdirStr ++ "/usr/share/metainfo"),
       Event.copy2 metadataFileStr (appdirStr ++ "/usr/share/metainfo/diskfmt.metainfo.xml")] ++
      iconEvents (resolvedIconSrc e) ++
      [Event.copy2 (iconDirStr 256 ++ "/diskfmt.png") (appdirStr ++ "/diskfmt.png"),
       Event.linuxdeployRun appdirStr binPathStr desktopTargetStr (appdirStr ++ "/diskfmt.png"),
       Event.mkdirP (parentPath (resolvedOutput e v))])))

/-- Recognizes the appimagetool invocation event. -/
def isAppimagetoolRunEv : Event → Bool
  | Event.appimagetoolRun _ => true
  | _ => false

/-- The event kinds that can occur before the `rmtree` of `AppDir`: the
`appimage_dir` mkdir, download events of either tool, and the build. -/
def preOk (e : Env) (ev : Event) : Bool :=
  ev = Event.mkdirP appimageDirStr || isDlEvent (resolvedLdPath e) ev
    || isDlEvent (resolvedAtPath e) ev || ev = Event.cargoBuild

/-- An environment in which every step succeeds: both helper tools already
present, binary already built, every external process exits 0. -/
def envGood : Env :=
  { convertOnPath := true, cargoOnPath := true,
    unameMachine := "x86_64", archEnv := none, iconSrcEnv := none,
    versionEnv := some "1.2.3", cargoToml := none,
    linuxdeployEnv := none, appimagetoolEnv := none,
    linuxdeployUrlEnv := none, appimagetoolUrlEnv := none, outputEnv := none,
    desktopFileExists := true, iconExists := true, metadataExists := true,
    desktopContent := ['[', 'D', 'E', ']'],
    linuxdeployFile := some ⟨['L'], 493⟩, appimagetoolFile := some ⟨['A'], 493⟩,
    dlOracle1 := fun _ => AttemptOutcome.ok ['L'],
    dlOracle2 := fun _ => AttemptOutcome.ok ['A'],
    binOk := true, cargoBuildExit := 0, convertExit := fun _ => 0,
    linuxdeployExit := 0, appimagetoolExit := 0, outputExists := true }

/-- Like `envGood` but the linuxdeploy tool is absent and its download
fails on attempts 1 and 2 and succeeds on attempt 3. -/
def envRetry : Env :=
  { envGood with
    linuxdeployFile := none,
    dlOracle1 := fun k =>
      match k with
      | 3 => AttemptOutcome.ok ['L']
      | _ => AttemptOutcome.connectFail "timeout" }

/-- Like `envGood` but the linuxdeploy tool is absent and every download
attempt fails to connect. -/
def envAllFail : Env :=
  { envGood with
    linuxdeployFile := none,
    dlOracle1 := fun _ => AttemptOutcome.connectFail "timeout" }

/-- Like `envGood` but the image-resize tool is not on PATH. -/
def envNoConvert : Env := { envGood with convertOnPath := false }

/-- Like `envGood` but no version is available from either source. -/
def envNoVersion : Env := { envGood with versionEnv := none, cargoToml := none }

/-- Like `envGood` but helper tool #2 exits with code 7. -/
def envAtFail : Env := { envGood with appimagetoolExit := 7 }

/-! ## Lemmas about `leadsList` and `countOcc` -/

theorem leads_iff (k l : List Char) : leadsList k l = true ↔ ∃ t, l = k ++ t := by
  induction k generalizing l with
  | nil => simp [leadsList]
  | cons a as ih =>
    cases l with
    | nil =>
      simp only [leadsList]
      constructor
      · intro h; simp at h
      · rintro ⟨t, ht⟩; simp at ht
    | cons b bs =>
      simp only [leadsList, List.cons_append]
      by_cases hab : a = b
      · subst hab
        rw [if_pos rfl, ih]
        constructor
        · rintro ⟨t, rfl⟩; exact ⟨t, rfl⟩
        · rintro ⟨t, ht⟩
          injection ht with h1 h2
          exact ⟨t, h2⟩
      · rw [if_neg hab]
        constructor
        · intro h; simp at h
        · rintro ⟨t, ht⟩
          injection ht with h1 h2
          exact absurd h1.symm hab

theorem leads_len {k l : List Char} (h : leadsList k l = true) : k.length ≤ l.length := by
  rcases (leads_iff k l).mp h with ⟨t, rfl⟩
  simp

theorem leads_extend {k a : List Char} (b : List Char) (h : leadsList k a = true) :
    leadsList k (a ++ b) = true := by
  rcases (leads_iff k a).mp h with ⟨t, rfl⟩
  exact (leads_iff _ _).mpr ⟨t ++ b, by simp⟩

theorem append_eq_append_len_le {a b k t : List Char} (h : a ++ b = k ++ t)
    (hlen : k.length ≤ a.length) : ∃ s, a = k ++ s := by
  rcases List.append_eq_append_iff.mp h with ⟨a', ha', _⟩ | ⟨c', hc', _⟩
  · have hlen2 : a.length + a'.length = k.length := by
      have := congrArg List.length ha'
      simpa using this.symm
    have : a'.length = 0 := by omega
    refine ⟨[], ?_⟩
    rw [ha', List.length_eq_zero.mp this, List.append_nil, List.append_nil]
  · exact ⟨c', hc'⟩

theorem leads_of_append_le {k a : List Char} (b : List Char)
    (h : leadsList k (a ++ b) = true) (hlen : k.length ≤ a.length) :
    leadsList k a = true := by
  rcases (leads_iff _ _).mp h with ⟨t, ht⟩
  rcases append_eq_append_len_le ht hlen with ⟨s, hs⟩
  exact (leads_iff _ _).mpr ⟨s, hs⟩

theorem leads_long {k a : List Char} (b : List Char)
    (h : leadsList k (a ++ b) = true) (hlen : a.length ≤ k.length) :
    ∃ s, k = a ++ s := by
  rcases (leads_iff _ _).mp h with ⟨t, ht⟩
  exact append_eq_append_len_le ht.symm hlen

theorem lastMem {a : List Char} {x : Char} (h : a.getLast? = some x) : x ∈ a := by
  induction a with
  | nil => simp at h
  | cons c rest ih =>
    cases rest with
    | nil => simp_all
    | cons d ds =>
      rw [List.getLast?_cons_cons] at h
      exact List.mem_cons_of_mem c (ih h)

theorem leads_append_last_notMem {k a : List Char} (b : List Char) {x : Char}
    (hx : x ∉ k) (hlast : a.getLast? = some x) :
    leadsList k (a ++ b) = leadsList k a := by
  by_cases hka : leadsList k a = true
  · rw [hka, leads_extend b hka]
  · simp only [Bool.not_eq_true] at hka
    rw [hka]
    cases hkb : leadsList k (a ++ b) with
    | false => rfl
    | true =>
      exfalso
      by_cases hlen : k.length ≤ a.length
      · rw [leads_of_append_le b hkb hlen] at hka
        exact Bool.true_eq_false.mp hka
      · rcases leads_long b hkb (by omega) with ⟨s, hs⟩
        exact hx (hs ▸ List.mem_append_left s (lastMem hlast))

theorem countOcc_cons (k : List Char) (c : Char) (rest : List Char) :
    countOcc k (c :: rest) = (if leadsList k (c :: rest) then 1 else 0) + countOcc k rest :=
  rfl

theorem countOcc_append_of_last_newline {k : List Char} (hk : k ≠ []) (hn : ('\n' : Char) ∉ k)
    {a : List Char} (b : List Char) (ha : a = [] ∨ a.getLast? = some '\n') :
    countOcc k (a ++ b) = countOcc k a + countOcc k b := by
  induction a with
  | nil => simp [countOcc]
  | cons c rest ih =>
    rcases ha with ha | ha
    · simp at ha
    have hhead : leadsList k ((c :: rest) ++ b) = leadsList k (c :: rest) :=
      leads_append_last_notMem b hn ha
    have htail : countOcc k (rest ++ b) = countOcc k rest + countOcc k b := by
      cases rest with
      | nil => simp [countOcc]
      | cons d ds =>
        apply ih
        right
        rw [List.getLast?_cons_cons] at ha
        exact ha
    rw [List.cons_append, countOcc_cons, countOcc_cons k c rest, ← List.cons_append, hhead,
      htail, Nat.add_assoc]

theorem countOcc_append_single {k : List Char} (hk : k ≠ []) {x : Char} (hx : x ∉ k)
    (a : List Char) : countOcc k (a ++ [x]) = countOcc k a := by
  induction a with
  | nil =>
    simp only [List.nil_append]
    have hfalse : leadsList k [x] = false := by
      cases hl : leadsList k [x] with
      | false => rfl
      | true =>
        exfalso
        rcases (leads_iff _ _).mp hl with ⟨t, ht⟩
        have hlen : k.length ≤ 1 := by
          have := leads_len hl
          simpa using this
        cases k with
        | nil => exact hk rfl
        | cons k0 ks =>
          have hks : ks = [] := by
            simp only [List.length_cons] at hlen
            exact List.length_eq_zero.mp (by omega)
          subst hks
          injection ht with h1 h2
          exact absurd (h1 ▸ List.mem_cons_self k0 []) hx
    rw [countOcc_cons, hfalse]
    simp [countOcc]
  | cons c rest ih =>
    have hhead : leadsList k ((c :: rest) ++ [x]) = leadsList k (c :: rest) := by
      by_cases hka : leadsList k (c :: rest) = true
      · rw [hka, leads_extend [x] hka]
      · simp only [Bool.not_eq_true] at hka
        rw [hka]
        cases hkb : leadsList k ((c :: rest) ++ [x]) with
        | false => rfl
        | true =>
          exfalso
          by_cases hlen : k.length ≤ (c :: rest).length
          · rw [leads_of_append_le [x] hkb hlen] at hka
            exact Bool.true_eq_false.mp hka
          · rcases (leads_iff _ _).mp hkb with ⟨t, ht⟩
            have hlen1 : ¬ k.length ≤ rest.length + 1 := by
              simpa using hlen
            have hlen2 : (rest.length + 1) + 1 = k.length + t.length := by
              have := congrArg List.length ht
              simpa using this
            have htnil : t = [] := List.length_eq_zero.mp (by omega)
            subst htnil
            rw [List.append_nil] at ht
            exact hx (ht ▸ List.mem_append_right _ (List.mem_singleton.mpr rfl))
    rw [List.cons_append, countOcc_cons, countOcc_cons k c rest, ← List.cons_append, hhead, ih]
theorem contains_iff_countOcc {k : List Char} (hk : k ≠ []) (l : List Char) :
    containsSub k l = true ↔ 0 < countOcc k l := by
  induction l with
  | nil =>
    simp only [containsSub, countOcc]
    constructor
    · intro h
      rcases (leads_iff _ _).mp h with ⟨t, ht⟩
      exact absurd (List.append_eq_nil.mp ht.symm).1 hk
    · omega
  | cons c rest ih =>
    simp only [containsSub, countOcc, Bool.or_eq_true, ih]
    by_cases hl : leadsList k (c :: rest) = true
    · simp [hl]
    · simp [hl, Bool.eq_false_iff.mpr hl]

theorem ensure_newline_cases (c : List Char) :
    ensure_newline_at_end c = [] ∨ (ensure_newline_at_end c).getLast? = some '\n' := by
  by_cases hc : c = []
  · left
    simp [ensure_newline_at_end, hc]
  · right
    unfold ensure_newline_at_end
    by_cases hl : c.getLast? = some '\n'
    · simp only [hl]
      simp [hc, hl]
    · simp only [if_pos (And.intro hc hl)]
      exact List.getLast?_concat c

theorem countOcc_ensure {k : List Char} (hk : k ≠ []) (hn : ('\n' : Char) ∉ k)
    (c : List Char) : countOcc k (ensure_newline_at_end c) = countOcc k c := by
  unfold ensure_newline_at_end
  by_cases h : c ≠ [] ∧ c.getLast? ≠ some '\n'
  · rw [if_pos h]
    exact countOcc_append_single hk hn c
  · rw [if_neg h]

/-- C2: after the desktop file is copied, if it does not contain the key
`X-AppImage-Version=` the script ensures a trailing newline and appends
exactly one stamp line, and if the key is present nothing is appended; the
staged file therefore never gains duplicate stamp lines (occurrence count
is 1 when the key was absent, unchanged when present, and stamping is
idempotent, so a second run over a pre-stamped file appends nothing). -/
theorem claim_C2 (v c : List Char)
    (hv : countOcc stampKey (stampKey ++ v ++ ['\n']) = 1) :
    countOcc stampKey (stampDesktop v c)
        = (if containsSub stampKey c then countOcc stampKey c else 1)
    ∧ (containsSub stampKey c = true → stampDesktop v c = c)
    ∧ (containsSub stampKey c = false →
        stampDesktop v c = ensure_newline_at_end c ++ stampKey ++ v ++ ['\n'])
    ∧ stampDesktop v (stampDesktop v c) = stampDesktop v c
    ∧ (countOcc stampKey c ≤ 1 → countOcc stampKey (stampDesktop v c) ≤ 1) := by
  have hkne : stampKey ≠ [] := by decide
  have hknl : ('\n' : Char) ∉ stampKey := by decide
  have hT : ∀ d, containsSub stampKey d = true → stampDesktop v d = d := by
    intro d h
    unfold stampDesktop
    rw [h]
    simp
  have hTrue : containsSub stampKey c = true → stampDesktop v c = c := hT c
  have hFalse : containsSub stampKey c = false →
      stampDesktop v c = ensure_newline_at_end c ++ stampKey ++ v ++ ['\n'] := by
    intro h
    unfold stampDesktop
    rw [h]
    simp
  have hmain : countOcc stampKey (stampDesktop v c)
      = (if containsSub stampKey c then countOcc stampKey c else 1) := by
    cases hc : containsSub stampKey c with
    | true => rw [hTrue hc]; simp
    | false =>
      have hc0 : countOcc stampKey c = 0 := by
        by_contra hne
        have : containsSub stampKey c = true :=
          (contains_iff_countOcc hkne c).mpr (by omega)
        rw [this] at hc
        exact Bool.true_eq_false.mp hc
      have hens : countOcc stampKey (ensure_newline_at_end c) = 0 := by
        rw [countOcc_ensure hkne hknl, hc0]
      have hassoc : stampDesktop v c
          = ensure_newline_at_end c ++ (stampKey ++ v ++ ['\n']) := by
        rw [hFalse hc]
        simp [List.append_assoc]
      rw [hassoc,
        countOcc_append_of_last_newline hkne hknl _ (ensure_newline_cases c), hens, hv]
      simp
  refine ⟨hmain, hTrue, hFalse, ?_, ?_⟩
  · cases hc : containsSub stampKey c with
    | true => rw [hTrue hc, hTrue hc]
    | false =>
      have h1 : countOcc stampKey (stampDesktop v c) = 1 := by
        rw [hmain, hc]
        simp
      have h2 : containsSub stampKey (stampDesktop v c) = true :=
        (contains_iff_countOcc hkne _).mpr (by omega)
      exact hT _ h2
  · intro hle
    rw [hmain]
    cases hc : containsSub stampKey c <;> simp <;> omega

/-- Witness for C2 at the version `1.2.3` and a desktop file with no
trailing newline and no stamp. -/
theorem claim_C2_witness :
    countOcc stampKey (stampKey ++ ['1', '.', '2', '.', '3'] ++ ['\n']) = 1
    ∧ (countOcc stampKey
          (stampDesktop ['1', '.', '2', '.', '3'] ['[', 'D', 'E', ']'])
        = (if containsSub stampKey ['[', 'D', 'E', ']'] then
             countOcc stampKey ['[', 'D', 'E', ']'] else 1)
      ∧ (containsSub stampKey ['[', 'D', 'E', ']'] = true →
          stampDesktop ['1', '.', '2', '.', '3'] ['[', 'D', 'E', ']'] = ['[', 'D', 'E', ']'])
      ∧ (containsSub stampKey ['[', 'D', 'E', ']'] = false →
          stampDesktop ['1', '.', '2', '.', '3'] ['[', 'D', 'E', ']']
            = ensure_newline_at_end ['[', 'D', 'E', ']'] ++ stampKey
                ++ ['1', '.', '2', '.', '3'] ++ ['\n'])
      ∧ stampDesktop ['1', '.', '2', '.', '3']
            (stampDesktop ['1', '.', '2', '.', '3'] ['[', 'D', 'E', ']'])
          = stampDesktop ['1', '.', '2', '.', '3'] ['[', 'D', 'E', ']']
      ∧ (countOcc stampKey ['[', 'D', 'E', ']'] ≤ 1 →
          countOcc stampKey
              (stampDesktop ['1', '.', '2', '.', '3'] ['[', 'D', 'E', ']']) ≤ 1)) :=
  ⟨by decide, claim_C2 ['1', '.', '2', '.', '3'] ['[', 'D', 'E', ']'] (by decide)⟩

/-! ## Lemmas about `download_tool` and `iconLoop` -/

theorem dl_skip (url t : String) (o : Nat → AttemptOutcome) (f : FileSt) :
    download_tool url (some f) o t = ⟨none, some f, [], [], []⟩ := rfl

theorem download_tool_events_all (url t : String) (f : Option FileSt)
    (o : Nat → AttemptOutcome) :
    ((download_tool url f o t).events).all (isDlEvent t) = true := by
  cases f with
  | some ff => rfl
  | none =>
    rcases h1 : o 1 with e1 | ⟨e1, p1⟩ | b1 <;>
      rcases h2 : o 2 with e2 | ⟨e2, p2⟩ | b2 <;>
        rcases h3 : o 3 with e3 | ⟨e3, p3⟩ | b3 <;>
          simp [download_tool, dlLoop, isDlEvent, h1, h2, h3]

theorem download_tool_events (url t : String) (f : Option FileSt)
    (o : Nat → AttemptOutcome) :
    ∀ ev ∈ (download_tool url f o t).events, isDlEvent t ev = true := by
  intro ev hev
  exact List.all_eq_true.mp (download_tool_events_all url t f o) ev hev

theorem download_tool_exit01 (url t : String) (f : Option FileSt)
    (o : Nat → AttemptOutcome) :
    (download_tool url f o t).exit = none ∨ (download_tool url f o t).exit = some 1 := by
  cases f with
  | some ff => left; rfl
  | none =>
    rcases h1 : o 1 with e1 | ⟨e1, p1⟩ | b1 <;>
      rcases h2 : o 2 with e2 | ⟨e2, p2⟩ | b2 <;>
        rcases h3 : o 3 with e3 | ⟨e3, p3⟩ | b3 <;>
          simp [download_tool, dlLoop, h1, h2, h3]

theorem dl_exit_of_nook (url t : String) (o : Nat → AttemptOutcome)
    (hno : ∀ k b, o k ≠ AttemptOutcome.ok b) :
    (download_tool url none o t).exit = some 1 := by
  rcases h1 : o 1 with e1 | ⟨e1, p1⟩ | b1 <;>
    rcases h2 : o 2 with e2 | ⟨e2, p2⟩ | b2 <;>
      rcases h3 : o 3 with e3 | ⟨e3, p3⟩ | b3 <;>
        first
          | exact absurd h1 (hno 1 _)
          | exact absurd h2 (hno 2 _)
          | exact absurd h3 (hno 3 _)
          | simp [download_tool, dlLoop, h1, h2, h3]

theorem dlEvent_props {t : String} {ev : Event} (h : isDlEvent t ev = true) :
    (inAppDir t = false → createsInAppDir ev = false)
    ∧ isToolRun ev = false
    ∧ (∀ p, ev ≠ Event.rmtree p)
    ∧ ev ≠ Event.cargoBuild
    ∧ (∀ p, ev ≠ Event.printCreated p)
    ∧ (∀ l, ev ≠ Event.appimagetoolRun l)
    ∧ (∀ a b c d, ev ≠ Event.linuxdeployRun a b c d) := by
  cases ev <;> simp_all [isDlEvent, createsInAppDir, isToolRun]

theorem iconLoop_events (cE : Nat → Nat) (src : String) :
    ∀ l, ∀ ev ∈ (iconLoop cE src l).1, isIconEvent ev = true := by
  intro l
  induction l with
  | nil => intro ev hev; simp [iconLoop] at hev
  | cons s rest ih =>
    intro ev hev
    unfold iconLoop at hev
    by_cases hc : cE s ≠ 0
    · rw [if_pos hc] at hev
      simp only [List.mem_cons, List.not_mem_nil, or_false] at hev
      rcases hev with rfl | rfl <;> simp [isIconEvent]
    · rw [if_neg hc] at hev
      simp only [List.cons_append, List.nil_append, List.mem_cons, List.mem_append] at hev
      rcases hev with rfl | rfl | h
      · simp [isIconEvent]
      · simp [isIconEvent]
      · exact ih ev h

theorem iconLoop_ok (cE : Nat → Nat) (src : String) (h : ∀ s, cE s = 0) :
    iconLoop cE src SIZES = (iconEvents src, none) := by
  simp [iconLoop, SIZES, iconEvents, h]

theorem iconEvent_props {ev : Event} (h : isIconEvent ev = true) :
    (∀ p, ev ≠ Event.printCreated p)
    ∧ (∀ l, ev ≠ Event.appimagetoolRun l)
    ∧ (∀ a b c d, ev ≠ Event.linuxdeployRun a b c d)
    ∧ isToolRun ev = false := by
  cases ev <;> simp_all [isIconEvent, isToolRun]

/-- C9: for each helper tool, when the target file already exists the
download is skipped silently (no events, no output, no error) with the file
— content and permission bits — left exactly as it was; and the
executable-bit marking happens only on runs whose download actually
succeeded (some attempt returned the full body and the function did not
die). -/
theorem claim_C9 :
    (∀ (url t : String) (o : Nat → AttemptOutcome) (f : FileSt),
        download_tool url (some f) o t = ⟨none, some f, [], [], []⟩)
    ∧ (∀ (url t : String) (o : Nat → AttemptOutcome),
        Event.chmodExec t ∈ (download_tool url none o t).events →
          (download_tool url none o t).exit = none
          ∧ ∃ k, (1 ≤ k ∧ k ≤ 3) ∧ ∃ b, o k = AttemptOutcome.ok b) := by
  constructor
  · intro url t o f
    rfl
  · intro url t o hmem
    rcases h1 : o 1 with e1 | ⟨e1, p1⟩ | b1 <;>
      rcases h2 : o 2 with e2 | ⟨e2, p2⟩ | b2 <;>
        rcases h3 : o 3 with e3 | ⟨e3, p3⟩ | b3 <;>
          first
            | exact ⟨by simp [download_tool, dlLoop, h1], 1, ⟨by omega, by omega⟩, _, h1⟩
            | exact ⟨by simp [download_tool, dlLoop, h1, h2], 2, ⟨by omega, by omega⟩, _, h2⟩
            | exact ⟨by simp [download_tool, dlLoop, h1, h2, h3], 3,
                ⟨by omega, by omega⟩, _, h3⟩
            | (exfalso; simp [download_tool, dlLoop, h1, h2, h3] at hmem)

/-- Witness for C9: a present tool file is returned untouched, and on a
first-attempt success the chmod marking implies a successful attempt. -/
theorem claim_C9_witness :
    download_tool "u" (some ⟨['x'], 420⟩) (fun _ => AttemptOutcome.ok ['y']) "t"
        = ⟨none, some ⟨['x'], 420⟩, [], [], []⟩
    ∧ ((download_tool "u" none (fun _ => AttemptOutcome.ok ['y']) "t").exit = none
        ∧ ∃ k, (1 ≤ k ∧ k ≤ 3) ∧ ∃ b,
            (fun _ => AttemptOutcome.ok ['y']) k = AttemptOutcome.ok b) :=
  ⟨claim_C9.1 "u" "t" (fun _ => AttemptOutcome.ok ['y']) ⟨['x'], 420⟩,
   claim_C9.2 "u" "t" (fun _ => AttemptOutcome.ok ['y'])
     (by simp [download_tool, dlLoop])⟩

/-- C10: within a download attempt the target is opened for writing only
after the connection succeeds: if every attempt fails to connect, no target
file is created (and the run dies with exit 1 having never opened the
target); if the final attempt's connection succeeds but reading/writing the
body fails, a partial target file remains on disk while the run dies; and a
subsequent `download_tool` call that finds the target present skips the
download entirely, treating the leftover as a valid tool. -/
theorem claim_C10 :
    (∀ (url t : String) (o : Nat → AttemptOutcome),
        (∀ k, ∃ err, o k = AttemptOutcome.connectFail err) →
          (download_tool url none o t).file = none
          ∧ (download_tool url none o t).exit = some 1
          ∧ Event.openWrite t ∉ (download_tool url none o t).events)
    ∧ (∀ (url t : String) (o : Nat → AttemptOutcome) (err : String) (p : List Char),
        (∀ b, o 1 ≠ AttemptOutcome.ok b) → (∀ b, o 2 ≠ AttemptOutcome.ok b) →
        o 3 = AttemptOutcome.bodyFail err p →
          (download_tool url none o t).exit = some 1
          ∧ ∃ st, (download_tool url none o t).file = some st ∧ st.content = p)
    ∧ (∀ (url t : String) (o : Nat → AttemptOutcome) (f : FileSt),
        download_tool url (some f) o t = ⟨none, some f, [], [], []⟩) := by
  refine ⟨?_, ?_, ?_⟩
  · intro url t o h
    obtain ⟨e1, h1⟩ := h 1
    obtain ⟨e2, h2⟩ := h 2
    obtain ⟨e3, h3⟩ := h 3
    refine ⟨?_, ?_, ?_⟩ <;> simp [download_tool, dlLoop, h1, h2, h3]
  · intro url t o err p hno1 hno2 h3
    rcases h1 : o 1 with e1 | ⟨e1, p1⟩ | b1 <;>
      rcases h2 : o 2 with e2 | ⟨e2, p2⟩ | b2 <;>
        first
          | exact absurd h1 (hno1 _)
          | exact absurd h2 (hno2 _)
          | exact ⟨by simp [download_tool, dlLoop, h1, h2, h3],
              ⟨p, createMode⟩, by simp [download_tool, dlLoop, h1, h2, h3, openTruncate], rfl⟩
  · intro url t o f
    rfl

/-- Witness for C10 with all-connect-fail and final-body-fail oracles. -/
theorem claim_C10_witness :
    ((download_tool "u" none (fun _ => AttemptOutcome.connectFail "x") "t").file = none
      ∧ (download_tool "u" none (fun _ => AttemptOutcome.connectFail "x") "t").exit = some 1
      ∧ Event.openWrite "t"
          ∉ (download_tool "u" none (fun _ => AttemptOutcome.connectFail "x") "t").events)
    ∧ ((download_tool "u" none (fun _ => AttemptOutcome.bodyFail "x" ['p']) "t").exit = some 1
      ∧ ∃ st, (download_tool "u" none (fun _ => AttemptOutcome.bodyFail "x" ['p']) "t").file
            = some st ∧ st.content = ['p'])
    ∧ download_tool "u" (some ⟨['p'], createMode⟩)
          (fun _ => AttemptOutcome.bodyFail "x" ['p']) "t"
        = ⟨none, some ⟨['p'], createMode⟩, [], [], []⟩ :=
  ⟨claim_C10.1 "u" "t" (fun _ => AttemptOutcome.connectFail "x") (fun _ => ⟨"x", rfl⟩),
   claim_C10.2.1 "u" "t" (fun _ => AttemptOutcome.bodyFail "x" ['p']) "x" ['p']
     (fun b h => by simp at h) (fun b h => by simp at h) rfl,
   claim_C10.2.2 "u" "t" (fun _ => AttemptOutcome.bodyFail "x" ['p']) ⟨['p'], createMode⟩⟩
theorem success_events (e : Env) (v : String)
    (hconv : e.convertOnPath = true) (hcargo : e.cargoOnPath = true)
    (hver : resolveVersion e.versionEnv e.cargoToml = some v)
    (hdesk : e.desktopFileExists = true) (hicon : e.iconExists = true)
    (hmeta : e.metadataExists = true)
    (hd1 : (d1run e).exit = none) (hd2 : (d2run e).exit = none)
    (hbin : e.binOk = true)
    (hconvE : ∀ s, e.convertExit s = 0)
    (hld : e.linuxdeployExit = 0) (hat : e.appimagetoolExit = 0) :
    (scriptRun e).exit = 0
    ∧ (scriptRun e).errLines = []
    ∧ (scriptRun e).events =
        preEvents e v ++
          ((if e.outputExists then [Event.unlink (resolvedOutput e v)] else []) ++
           [Event.appimagetoolRun [appdirStr, resolvedOutput e v],
            Event.printCreated (resolvedOutput e v)])
    ∧ ("Created " ++ resolvedOutput e v) ∈ (scriptRun e).outLines := by
  have hic := iconLoop_ok e.convertExit (resolvedIconSrc e) hconvE
  refine ⟨?_, ?_, ?_, ?_⟩ <;>
    simp [scriptRun, mainRun, hconv, hcargo, hver, hdesk, hicon, hmeta, hd1, hd2, hbin,
      hic, hld, hat, preEvents, List.append_assoc]

theorem d1fail_run (e : Env) (v : String) (c : Nat)
    (hconv : e.convertOnPath = true) (hcargo : e.cargoOnPath = true)
    (hver : resolveVersion e.versionEnv e.cargoToml = some v)
    (hdesk : e.desktopFileExists = true) (hicon : e.iconExists = true)
    (hmeta : e.metadataExists = true)
    (hd1 : (d1run e).exit = some c) :
    scriptRun e = ⟨c, Event.mkdirP appimageDirStr :: (d1run e).events,
                   (d1run e).outLines, (d1run e).errLines⟩ := by
  simp [scriptRun, mainRun, hconv, hcargo, hver, hdesk, hicon, hmeta, hd1]

/-- C1: for a helper-tool download whose target is absent, the script makes
up to 3 attempts with a 2-second sleep between failed attempts, each
successful attempt reading the whole body into the target; when attempts 1
and 2 fail and attempt 3 succeeds the whole run completes without an error,
and when all 3 attempts fail the run exits with code 1 having never touched
(neither created content in nor removed) the staging directory AppDir. -/
theorem claim_C1 :
    (∀ (url t : String) (o : Nat → AttemptOutcome) (m1 m2 : String) (body : List Char),
        o 1 = AttemptOutcome.connectFail m1 → o 2 = AttemptOutcome.connectFail m2 →
        o 3 = AttemptOutcome.ok body →
          (download_tool url none o t).exit = none
          ∧ (download_tool url none o t).file = some ⟨body, Nat.lor createMode 73⟩
          ∧ (download_tool url none o t).events =
              [Event.connect url 1, Event.sleepSecs 2, Event.connect url 2, Event.sleepSecs 2,
               Event.connect url 3, Event.openWrite t, Event.writeBody t, Event.chmodExec t]
          ∧ (download_tool url none o t).outLines =
              ["Downloading " ++ baseName t ++ " from " ++ url, retryMsg 1 3, retryMsg 2 3]
          ∧ (download_tool url none o t).errLines = [])
    ∧ (∀ (e : Env) (v : String) (m1 m2 : String) (body : List Char),
        e.convertOnPath = true → e.cargoOnPath = true →
        resolveVersion e.versionEnv e.cargoToml = some v →
        e.desktopFileExists = true → e.iconExists = true → e.metadataExists = true →
        e.linuxdeployFile = none →
        e.dlOracle1 1 = AttemptOutcome.connectFail m1 →
        e.dlOracle1 2 = AttemptOutcome.connectFail m2 →
        e.dlOracle1 3 = AttemptOutcome.ok body →
        (d2run e).exit = none →
        e.binOk = true → (∀ s, e.convertExit s = 0) →
        e.linuxdeployExit = 0 → e.appimagetoolExit = 0 →
          (scriptRun e).exit = 0 ∧ (scriptRun e).errLines = [])
    ∧ (∀ (e : Env) (v : String),
        e.convertOnPath = true → e.cargoOnPath = true →
        resolveVersion e.versionEnv e.cargoToml = some v →
        e.desktopFileExists = true → e.iconExists = true → e.metadataExists = true →
        e.linuxdeployFile = none →
        (∀ k b, e.dlOracle1 k ≠ AttemptOutcome.ok b) →
        inAppDir (resolvedLdPath e) = false →
          (scriptRun e).exit = 1
          ∧ (∀ ev ∈ (scriptRun e).events,
              createsInAppDir ev = false ∧ (∀ p, ev ≠ Event.rmtree p))) := by
  refine ⟨?_, ?_, ?_⟩
  · intro url t o m1 m2 body h1 h2 h3
    refine ⟨?_, ?_, ?_, ?_, ?_⟩ <;>
      simp [download_tool, dlLoop, h1, h2, h3, openTruncate, ensure_executable]
  · intro e v m1 m2 body hconv hcargo hver hdesk hicon hmeta hldf h1 h2 h3 hd2 hbin hcE hld hat
    have hd1 : (d1run e).exit = none := by
      simp [d1run, hldf, download_tool, dlLoop, h1, h2, h3]
    obtain ⟨hx, he, -, -⟩ :=
      success_events e v hconv hcargo hver hdesk hicon hmeta hd1 hd2 hbin hcE hld hat
    exact ⟨hx, he⟩
  · intro e v hconv hcargo hver hdesk hicon hmeta hldf hno hnotin
    have hd1 : (d1run e).exit = some 1 := by
      rw [d1run, hldf]
      exact dl_exit_of_nook _ _ _ hno
    have hrun := d1fail_run e v 1 hconv hcargo hver hdesk hicon hmeta hd1
    rw [hrun]
    refine ⟨rfl, ?_⟩
    intro ev hev
    rcases List.mem_cons.mp hev with rfl | hev
    · refine ⟨by decide, ?_⟩
      intro p
      simp
    · have hdl := download_tool_events (resolvedLdUrl e) (resolvedLdPath e)
        e.linuxdeployFile e.dlOracle1 ev (by rw [d1run] at hev; exact hev)
      obtain ⟨hc, -, hrm, -⟩ := dlEvent_props hdl
      exact ⟨hc hnotin, hrm⟩

/-- Witness for C1: the retry oracle that succeeds on attempt 3 yields a
successful run, and the all-fail oracle yields exit 1 with AppDir
untouched. -/
theorem claim_C1_witness :
    ((download_tool "u" none envRetry.dlOracle1 "t").exit = none
      ∧ (download_tool "u" none envRetry.dlOracle1 "t").file
          = some ⟨['L'], Nat.lor createMode 73⟩
      ∧ (download_tool "u" none envRetry.dlOracle1 "t").events =
          [Event.connect "u" 1, Event.sleepSecs 2, Event.connect "u" 2, Event.sleepSecs 2,
           Event.connect "u" 3, Event.openWrite "t", Event.writeBody "t", Event.chmodExec "t"]
      ∧ (download_tool "u" none envRetry.dlOracle1 "t").outLines =
          ["Downloading " ++ baseName "t" ++ " from " ++ "u", retryMsg 1 3, retryMsg 2 3]
      ∧ (download_tool "u" none envRetry.dlOracle1 "t").errLines = [])
    ∧ ((scriptRun envRetry).exit = 0 ∧ (scriptRun envRetry).errLines = [])
    ∧ ((scriptRun envAllFail).exit = 1
      ∧ (∀ ev ∈ (scriptRun envAllFail).events,
          createsInAppDir ev = false ∧ (∀ p, ev ≠ Event.rmtree p))) :=
  ⟨claim_C1.1 "u" "t" envRetry.dlOracle1 "timeout" "timeout" ['L'] rfl rfl rfl,
   claim_C1.2.1 envRetry "1.2.3" "timeout" "timeout" ['L'] rfl rfl rfl rfl rfl rfl rfl
     rfl rfl rfl rfl rfl (fun _ => rfl) rfl rfl,
   claim_C1.2.2 envAllFail "1.2.3" rfl rfl rfl rfl rfl rfl rfl
     (fun k b h => by simp [envAllFail, envGood] at h) (by decide)⟩

/-! ## Lemmas about `cleanBeforeRemoval` -/

theorem clean_nil : cleanBeforeRemoval [] := by
  intro pre suf heq hnot ev hev
  have : pre = [] := by
    cases pre with
    | nil => rfl
    | cons a p' => simp at heq
  subst this
  simp at hev

theorem clean_rm (tr : List Event) : cleanBeforeRemoval (Event.rmtree appdirStr :: tr) := by
  intro pre suf heq hnot ev hev
  cases pre with
  | nil => simp at hev
  | cons a p' =>
    rw [List.cons_append] at heq
    injection heq with h1 h2
    exact absurd (h1 ▸ List.mem_cons_self a p') hnot

theorem clean_cons {x : Event} {tr : List Event}
    (hx : createsInAppDir x = false ∧ isToolRun x = false)
    (h : cleanBeforeRemoval tr) : cleanBeforeRemoval (x :: tr) := by
  intro pre suf heq hnot ev hev
  cases pre with
  | nil => simp at hev
  | cons a p' =>
    rw [List.cons_append] at heq
    injection heq with h1 h2
    subst h1
    rcases List.mem_cons.mp hev with rfl | hev'
    · exact hx
    · exact h p' suf h2 (fun hm => hnot (List.mem_cons_of_mem _ hm)) ev hev'

theorem clean_of_all {tr : List Event}
    (h : ∀ ev ∈ tr, createsInAppDir ev = false ∧ isToolRun ev = false) :
    cleanBeforeRemoval tr := by
  intro pre suf heq hnot ev hev
  exact h ev (heq ▸ List.mem_append_left suf hev)

theorem clean_append {l tr : List Event}
    (hl : ∀ ev ∈ l, createsInAppDir ev = false ∧ isToolRun ev = false)
    (h : cleanBeforeRemoval tr) : cleanBeforeRemoval (l ++ tr) := by
  induction l with
  | nil => simpa using h
  | cons a rest ih =>
    rw [List.cons_append]
    exact clean_cons (hl a (List.mem_cons_self a rest))
      (ih (fun ev hev => hl ev (List.mem_cons_of_mem a hev)))

/-! ## Branch characterizations of the whole run -/

theorem d2fail_run (e : Env) (v : String) (c : Nat)
    (hconv : e.convertOnPath = true) (hcargo : e.cargoOnPath = true)
    (hver : resolveVersion e.versionEnv e.cargoToml = some v)
    (hdesk : e.desktopFileExists = true) (hicon : e.iconExists = true)
    (hmeta : e.metadataExists = true)
    (hd1 : (d1run e).exit = none) (hd2 : (d2run e).exit = some c) :
    scriptRun e = ⟨c, Event.mkdirP appimageDirStr :: ((d1run e).events ++ (d2run e).events),
                   (d1run e).outLines ++ (d2run e).outLines, (d2run e).errLines⟩ := by
  simp [scriptRun, mainRun, hconv, hcargo, hver, hdesk, hicon, hmeta, hd1, hd2]

theorem build_fail_run (e : Env) (v : String)
    (hconv : e.convertOnPath = true) (hcargo : e.cargoOnPath = true)
    (hver : resolveVersion e.versionEnv e.cargoToml = some v)
    (hdesk : e.desktopFileExists = true) (hicon : e.iconExists = true)
    (hmeta : e.metadataExists = true)
    (hd1 : (d1run e).exit = none) (hd2 : (d2run e).exit = none)
    (hb : e.binOk = false ∧ e.cargoBuildExit ≠ 0) :
    (scriptRun e).exit = 1
    ∧ (scriptRun e).events
        = Event.mkdirP appimageDirStr ::
            ((d1run e).events ++ ((d2run e).events ++ [Event.cargoBuild]))
    ∧ (scriptRun e).errLines = [procFailMsg e.cargoBuildExit] := by
  refine ⟨?_, ?_, ?_⟩ <;>
    simp [scriptRun, mainRun, hconv, hcargo, hver, hdesk, hicon, hmeta, hd1, hd2, hb, hb.1]

theorem staging_shape (e : Env) (v : String)
    (hconv : e.convertOnPath = true) (hcargo : e.cargoOnPath = true)
    (hver : resolveVersion e.versionEnv e.cargoToml = some v)
    (hdesk : e.desktopFileExists = true) (hicon : e.iconExists = true)
    (hmeta : e.metadataExists = true)
    (hd1 : (d1run e).exit = none) (hd2 : (d2run e).exit = none)
    (hnb : ¬(e.binOk = false ∧ e.cargoBuildExit ≠ 0)) :
    ∃ R, (scriptRun e).events
        = Event.mkdirP appimageDirStr ::
            ((d1run e).events ++ ((d2run e).events ++
              ((if e.binOk = true then [] else [Event.cargoBuild]) ++
                Event.rmtree appdirStr :: R))) := by
  rcases hic : (iconLoop e.convertExit (resolvedIconSrc e) SIZES).2 with _ | c3 <;>
    by_cases hld : e.linuxdeployExit = 0 <;>
      by_cases hat : e.appimagetoolExit = 0 <;>
        exact ⟨_, by
          simp [scriptRun, mainRun, hconv, hcargo, hver, hdesk, hicon, hmeta,
            hd1, hd2, hnb, hic, hld, hat, List.append_assoc]
          try rfl⟩

set_option maxHeartbeats 1000000 in
/-- C3: on every run the whole AppDir tree removal precedes every creation
of staging content and both helper-tool invocations: in any prefix of the
run's event trace that does not yet contain the `rmtree` of AppDir, nothing
has been created in AppDir and no helper tool has been invoked.  (The two
hypotheses exclude the degenerate configuration in which an environment
override points a helper-tool download target inside the staging directory
itself.) -/
theorem claim_C3 (e : Env)
    (hld : inAppDir (resolvedLdPath e) = false)
    (hat : inAppDir (resolvedAtPath e) = false) :
    cleanBeforeRemoval (scriptRun e).events := by
  have hd1ev : ∀ ev ∈ (d1run e).events,
      createsInAppDir ev = false ∧ isToolRun ev = false := by
    intro ev hev
    have h := download_tool_events (resolvedLdUrl e) (resolvedLdPath e)
      e.linuxdeployFile e.dlOracle1 ev (by simpa [d1run] using hev)
    obtain ⟨hc, ht, -⟩ := dlEvent_props h
    exact ⟨hc hld, ht⟩
  have hd2ev : ∀ ev ∈ (d2run e).events,
      createsInAppDir ev = false ∧ isToolRun ev = false := by
    intro ev hev
    have h := download_tool_events (resolvedAtUrl e) (resolvedAtPath e)
      e.appimagetoolFile e.dlOracle2 ev (by simpa [d2run] using hev)
    obtain ⟨hc, ht, -⟩ := dlEvent_props h
    exact ⟨hc hat, ht⟩
  have hbp : ∀ ev ∈ (if e.binOk = true then ([] : List Event) else [Event.cargoBuild]),
      createsInAppDir ev = false ∧ isToolRun ev = false := by
    intro ev hev
    cases hb : e.binOk
    · simp [hb] at hev
      subst hev
      exact ⟨rfl, rfl⟩
    · simp [hb] at hev
  cases hconv : e.convertOnPath with
  | false =>
    have h : (scriptRun e).events = [] := by simp [scriptRun, hconv]
    rw [h]
    exact clean_nil
  | true =>
  cases hcargo : e.cargoOnPath with
  | false =>
    have h : (scriptRun e).events = [] := by simp [scriptRun, hconv, hcargo]
    rw [h]
    exact clean_nil
  | true =>
  rcases hver : resolveVersion e.versionEnv e.cargoToml with _ | v
  · have h : (scriptRun e).events = [] := by
      simp [scriptRun, mainRun, hconv, hcargo, hver, dieRun]
    rw [h]
    exact clean_nil
  cases hdesk : e.desktopFileExists with
  | false =>
    have h : (scriptRun e).events = [] := by
      simp [scriptRun, mainRun, hconv, hcargo, hver, hdesk, dieRun]
    rw [h]
    exact clean_nil
  | true =>
  cases hicon : e.iconExists with
  | false =>
    have h : (scriptRun e).events = [] := by
      simp [scriptRun, mainRun, hconv, hcargo, hver, hdesk, hicon, dieRun]
    rw [h]
    exact clean_nil
  | true =>
  cases hmeta : e.metadataExists with
  | false =>
    have h : (scriptRun e).events = [] := by
      simp [scriptRun, mainRun, hconv, hcargo, hver, hdesk, hicon, hmeta, dieRun]
    rw [h]
    exact clean_nil
  | true =>
  rcases hd1 : (d1run e).exit with _ | c1
  · rcases hd2 : (d2run e).exit with _ | c2
    · by_cases hb : e.binOk = false ∧ e.cargoBuildExit ≠ 0
      · obtain ⟨-, hevs, -⟩ :=
          build_fail_run e v hconv hcargo hver hdesk hicon hmeta hd1 hd2 hb
        rw [hevs]
        exact clean_cons ⟨rfl, rfl⟩ (clean_append hd1ev (clean_append hd2ev
          (clean_cons ⟨rfl, rfl⟩ clean_nil)))
      · obtain ⟨R, hevs⟩ :=
          staging_shape e v hconv hcargo hver hdesk hicon hmeta hd1 hd2 hb
        rw [hevs]
        exact clean_cons ⟨rfl, rfl⟩ (clean_append hd1ev (clean_append hd2ev
          (clean_append hbp (clean_rm R))))
    · have hrun := d2fail_run e v c2 hconv hcargo hver hdesk hicon hmeta hd1 hd2
      rw [hrun]
      exact clean_cons ⟨rfl, rfl⟩ (clean_append hd1ev (clean_of_all hd2ev))
  · have hrun := d1fail_run e v c1 hconv hcargo hver hdesk hicon hmeta hd1
    rw [hrun]
    exact clean_cons ⟨rfl, rfl⟩ (clean_of_all hd1ev)

/-- Witness for C3 at the all-good environment. -/
theorem claim_C3_witness : cleanBeforeRemoval (scriptRun envGood).events :=
  claim_C3 envGood (by decide) (by decide)

/-- C4: each failing precondition check — image-resize tool on PATH,
desktop-entry source present, icon source present, metadata source present
— terminates the run with a message on stderr and exit code 1 before any
download, build, or staging mutation: the event trace of such a run is
empty. -/
theorem claim_C4 (e : Env) :
    (e.convertOnPath = false →
        (scriptRun e).exit = 1 ∧ (scriptRun e).errLines ≠ [] ∧ (scriptRun e).events = [])
    ∧ (∀ v, e.convertOnPath = true → e.cargoOnPath = true →
        resolveVersion e.versionEnv e.cargoToml = some v →
        e.desktopFileExists = false →
          (scriptRun e).exit = 1
          ∧ (scriptRun e).errLines = ["Desktop file not found: " ++ desktopFileStr]
          ∧ (scriptRun e).events = [])
    ∧ (∀ v, e.convertOnPath = true → e.cargoOnPath = true →
        resolveVersion e.versionEnv e.cargoToml = some v →
        e.desktopFileExists = true → e.iconExists = false →
          (scriptRun e).exit = 1
          ∧ (scriptRun e).errLines = ["Icon not found: " ++ resolvedIconSrc e]
          ∧ (scriptRun e).events = [])
    ∧ (∀ v, e.convertOnPath = true → e.cargoOnPath = true →
        resolveVersion e.versionEnv e.cargoToml = some v →
        e.desktopFileExists = true → e.iconExists = true → e.metadataExists = false →
          (scriptRun e).exit = 1
          ∧ (scriptRun e).errLines = ["Metadata not found: " ++ metadataFileStr]
          ∧ (scriptRun e).events = []) := by
  refine ⟨?_, ?_, ?_, ?_⟩
  · intro h
    refine ⟨?_, ?_, ?_⟩ <;> simp [scriptRun, h]
  · intro v hconv hcargo hver hdesk
    refine ⟨?_, ?_, ?_⟩ <;>
      simp [scriptRun, mainRun, hconv, hcargo, hver, hdesk, dieRun]
  · intro v hconv hcargo hver hdesk hicon
    refine ⟨?_, ?_, ?_⟩ <;>
      simp [scriptRun, mainRun, hconv, hcargo, hver, hdesk, hicon, dieRun]
  · intro v hconv hcargo hver hdesk hicon hmeta
    refine ⟨?_, ?_, ?_⟩ <;>
      simp [scriptRun, mainRun, hconv, hcargo, hver, hdesk, hicon, hmeta, dieRun]

/-- Witness for C4: with the resize tool missing, the run exits 1 with a
message and an empty effect trace. -/
theorem claim_C4_witness :
    (scriptRun envNoConvert).exit = 1 ∧ (scriptRun envNoConvert).errLines ≠ []
    ∧ (scriptRun envNoConvert).events = [] :=
  (claim_C4 envNoConvert).1 rfl

/-- C7: the version is the explicit override when that override is a
nonempty string; otherwise (unset or empty) it is the `version` string
nested under the `package` table of the parsed manifest, and `none` exactly
when no such nested string exists; when neither source yields a version the
run exits 1 with a message on stderr having performed no effect at all. -/
theorem claim_C7 :
    (∀ (m : Option (List (String × TomlValue))) (v : String), v ≠ "" →
        resolveVersion (some v) m = some v)
    ∧ (∀ (m : Option (List (String × TomlValue))),
        resolveVersion none m
          = (if pyFalsy (read_version_from_cargo m) then none
             else read_version_from_cargo m)
        ∧ resolveVersion (some "") m
          = (if pyFalsy (read_version_from_cargo m) then none
             else read_version_from_cargo m))
    ∧ (∀ (m : Option (List (String × TomlValue))) (s : String),
        read_version_from_cargo m = some s ↔
          ∃ data t, m = some data
            ∧ tomlGet data "package" = some (TomlValue.table t)
            ∧ tomlGet t "version" = some (TomlValue.str s))
    ∧ (∀ e : Env, resolveVersion e.versionEnv e.cargoToml = none →
        (scriptRun e).exit = 1 ∧ (scriptRun e).events = []
        ∧ (scriptRun e).errLines ≠ []) := by
  refine ⟨?_, ?_, ?_, ?_⟩
  · intro m v hv
    simp [resolveVersion, pyFalsy, hv]
  · intro m
    constructor <;> simp [resolveVersion, pyFalsy]
  · intro m s
    cases m with
    | none => simp [read_version_from_cargo]
    | some data =>
      simp only [read_version_from_cargo]
      rcases hp : tomlGet data "package" with _ | val
      · simp [hp]
      · cases val with
        | str s' => simp [hp]
        | other => simp [hp]
        | table t =>
          rcases hv : tomlGet t "version" with _ | val2
          · simp [hp, hv]
          · cases val2 with
            | str s' => simp [hp, hv]
            | other => simp [hp, hv]
            | table t2 => simp [hp, hv]
  · intro e hver
    cases hconv : e.convertOnPath with
    | false => refine ⟨?_, ?_, ?_⟩ <;> simp [scriptRun, hconv]
    | true =>
      cases hcargo : e.cargoOnPath with
      | false => refine ⟨?_, ?_, ?_⟩ <;> simp [scriptRun, hconv, hcargo]
      | true =>
        refine ⟨?_, ?_, ?_⟩ <;>
          simp [scriptRun, mainRun, hconv, hcargo, hver, dieRun]

/-- Witness for C7: override "1.2.3" wins; with no sources the run dies
with an empty trace. -/
theorem claim_C7_witness :
    resolveVersion (some "1.2.3") none = some "1.2.3"
    ∧ ((scriptRun envNoVersion).exit = 1 ∧ (scriptRun envNoVersion).events = []
        ∧ (scriptRun envNoVersion).errLines ≠ []) :=
  ⟨claim_C7.1 none "1.2.3" (by decide),
   claim_C7.2.2.2 envNoVersion rfl⟩

/-- C5: with no output override the output path is
`<appimage dir>/diskfmt-<version>-<arch>.AppImage` (so version 1.2.3 on
x86_64 yields the file name `diskfmt-1.2.3-x86_64.AppImage`), and on a
successful run with a pre-existing output file the file is deleted
immediately before helper tool #2 is invoked with exactly the two
positional arguments AppDir path and output path. -/
theorem claim_C5 (e : Env) (v : String)
    (hconv : e.convertOnPath = true) (hcargo : e.cargoOnPath = true)
    (hver : resolveVersion e.versionEnv e.cargoToml = some v)
    (hdesk : e.desktopFileExists = true) (hicon : e.iconExists = true)
    (hmeta : e.metadataExists = true)
    (hd1 : (d1run e).exit = none) (hd2 : (d2run e).exit = none)
    (hbin : e.binOk = true)
    (hconvE : ∀ s, e.convertExit s = 0)
    (hld : e.linuxdeployExit = 0) (hat : e.appimagetoolExit = 0)
    (hout : e.outputEnv = none) (houtex : e.outputExists = true) :
    resolvedOutput e v
        = appimageDirStr ++ "/diskfmt-" ++ v ++ "-" ++ resolvedArch e ++ ".AppImage"
    ∧ (resolvedArch e = "x86_64" → v = "1.2.3" →
        baseName (resolvedOutput e v) = "diskfmt-1.2.3-x86_64.AppImage")
    ∧ ∃ pre, (scriptRun e).events
        = pre ++ [Event.unlink (resolvedOutput e v),
                  Event.appimagetoolRun [appdirStr, resolvedOutput e v],
                  Event.printCreated (resolvedOutput e v)] := by
  obtain ⟨-, -, hevents, -⟩ :=
    success_events e v hconv hcargo hver hdesk hicon hmeta hd1 hd2 hbin hconvE hld hat
  refine ⟨?_, ?_, ?_⟩
  · simp [resolvedOutput, hout]
  · intro ha hv
    subst hv
    simp [resolvedOutput, hout, ha]
    decide
  · refine ⟨preEvents e v, ?_⟩
    rw [hevents, houtex]
    simp

/-- Witness for C5 at the all-good environment with version 1.2.3 on
x86_64. -/
theorem claim_C5_witness :
    resolvedOutput envGood "1.2.3"
        = appimageDirStr ++ "/diskfmt-" ++ "1.2.3" ++ "-" ++ resolvedArch envGood ++ ".AppImage"
    ∧ (resolvedArch envGood = "x86_64" → "1.2.3" = "1.2.3" →
        baseName (resolvedOutput envGood "1.2.3") = "diskfmt-1.2.3-x86_64.AppImage")
    ∧ ∃ pre, (scriptRun envGood).events
        = pre ++ [Event.unlink (resolvedOutput envGood "1.2.3"),
                  Event.appimagetoolRun [appdirStr, resolvedOutput envGood "1.2.3"],
                  Event.printCreated (resolvedOutput envGood "1.2.3")] :=
  claim_C5 envGood "1.2.3" rfl rfl rfl rfl rfl rfl rfl rfl rfl (fun _ => rfl) rfl rfl rfl rfl

theorem notAppimagetool_false {ev : Event} (h : ∀ l, ev ≠ Event.appimagetoolRun l) :
    isAppimagetoolRunEv ev = false := by
  cases ev <;> first | rfl | exact absurd rfl (h _)

/-- C8: a successful run creates, for each of exactly the six icon sizes,
the themed icon directory and a resize invocation into it, copies the
256x256 icon to the staging root, and invokes the packaging tool exactly
once, at the resolved output path; the run exits 0. -/
theorem claim_C8 (e : Env) (v : String)
    (hconv : e.convertOnPath = true) (hcargo : e.cargoOnPath = true)
    (hver : resolveVersion e.versionEnv e.cargoToml = some v)
    (hdesk : e.desktopFileExists = true) (hicon : e.iconExists = true)
    (hmeta : e.metadataExists = true)
    (hd1 : (d1run e).exit = none) (hd2 : (d2run e).exit = none)
    (hbin : e.binOk = true)
    (hconvE : ∀ s, e.convertExit s = 0)
    (hld : e.linuxdeployExit = 0) (hat : e.appimagetoolExit = 0) :
    (∀ s ∈ SIZES, Event.mkdirP (iconDirStr s) ∈ (scriptRun e).events
        ∧ Event.convertRun (resolvedIconSrc e) s (iconDirStr s ++ "/diskfmt.png")
            ∈ (scriptRun e).events)
    ∧ Event.copy2 (iconDirStr 256 ++ "/diskfmt.png") (appdirStr ++ "/diskfmt.png")
        ∈ (scriptRun e).events
    ∧ (scriptRun e).events.countP isAppimagetoolRunEv = 1
    ∧ Event.appimagetoolRun [appdirStr, resolvedOutput e v] ∈ (scriptRun e).events
    ∧ (scriptRun e).exit = 0 := by
  obtain ⟨hx, -, hevents, -⟩ :=
    success_events e v hconv hcargo hver hdesk hicon hmeta hd1 hd2 hbin hconvE hld hat
  have hc1 : (d1run e).events.countP isAppimagetoolRunEv = 0 := by
    refine List.countP_eq_zero.mpr ?_
    intro ev hev
    have h := download_tool_events (resolvedLdUrl e) (resolvedLdPath e)
      e.linuxdeployFile e.dlOracle1 ev (by simpa [d1run] using hev)
    obtain ⟨-, -, -, -, -, hne, -⟩ := dlEvent_props h
    simp [notAppimagetool_false hne]
  have hc2 : (d2run e).events.countP isAppimagetoolRunEv = 0 := by
    refine List.countP_eq_zero.mpr ?_
    intro ev hev
    have h := download_tool_events (resolvedAtUrl e) (resolvedAtPath e)
      e.appimagetoolFile e.dlOracle2 ev (by simpa [d2run] using hev)
    obtain ⟨-, -, -, -, -, hne, -⟩ := dlEvent_props h
    simp [notAppimagetool_false hne]
  have hcu : (if e.outputExists = true then [Event.unlink (resolvedOutput e v)]
      else []).countP isAppimagetoolRunEv = 0 := by
    cases houx : e.outputExists <;> simp [isAppimagetoolRunEv]
  have hcs : (stampEvs v.data e.desktopContent).countP isAppimagetoolRunEv = 0 := by
    unfold stampEvs
    by_cases hcst : containsSub stampKey e.desktopContent = true
    · simp [hcst]
    · rw [if_neg hcst]
      by_cases hnl : e.desktopContent ≠ [] ∧ e.desktopContent.getLast? ≠ some '\n' <;>
        simp [hnl, isAppimagetoolRunEv]
  refine ⟨?_, ?_, ?_, ?_, hx⟩
  · intro s hs
    rw [SIZES] at hs
    fin_cases hs <;>
      exact ⟨by rw [hevents]; simp [preEvents, iconEvents],
             by rw [hevents]; simp [preEvents, iconEvents]⟩
  · rw [hevents]
    simp [preEvents]
  · rw [hevents]
    simp [List.countP_append, List.countP_cons, preEvents, iconEvents, hc1, hc2, hcu, hcs,
      isAppimagetoolRunEv]
  · rw [hevents]
    simp

/-- Witness for C8 at the all-good environment. -/
theorem claim_C8_witness :
    (∀ s ∈ SIZES, Event.mkdirP (iconDirStr s) ∈ (scriptRun envGood).events
        ∧ Event.convertRun (resolvedIconSrc envGood) s (iconDirStr s ++ "/diskfmt.png")
            ∈ (scriptRun envGood).events)
    ∧ Event.copy2 (iconDirStr 256 ++ "/diskfmt.png") (appdirStr ++ "/diskfmt.png")
        ∈ (scriptRun envGood).events
    ∧ (scriptRun envGood).events.countP isAppimagetoolRunEv = 1
    ∧ Event.appimagetoolRun [appdirStr, resolvedOutput envGood "1.2.3"]
        ∈ (scriptRun envGood).events
    ∧ (scriptRun envGood).exit = 0 :=
  claim_C8 envGood "1.2.3" rfl rfl rfl rfl rfl rfl rfl rfl rfl (fun _ => rfl) rfl rfl

/-! ## Exit-code and stderr characterizations for C6 -/

theorem dl_err_of_exit {url t : String} {f : Option FileSt} {o : Nat → AttemptOutcome}
    {c : Nat} (h : (download_tool url f o t).exit = some c) :
    (download_tool url f o t).errLines ≠ [] := by
  cases f with
  | some ff => simp [download_tool] at h
  | none =>
    rcases h1 : o 1 with e1 | ⟨e1, p1⟩ | b1 <;>
      rcases h2 : o 2 with e2 | ⟨e2, p2⟩ | b2 <;>
        rcases h3 : o 3 with e3 | ⟨e3, p3⟩ | b3 <;>
          simp [download_tool, dlLoop, h1, h2, h3] at h ⊢

theorem icon_fail_run (e : Env) (v : String) (c3 : Nat)
    (hconv : e.convertOnPath = true) (hcargo : e.cargoOnPath = true)
    (hver : resolveVersion e.versionEnv e.cargoToml = some v)
    (hdesk : e.desktopFileExists = true) (hicon : e.iconExists = true)
    (hmeta : e.metadataExists = true)
    (hd1 : (d1run e).exit = none) (hd2 : (d2run e).exit = none)
    (hnb : ¬(e.binOk = false ∧ e.cargoBuildExit ≠ 0))
    (hic : (iconLoop e.convertExit (resolvedIconSrc e) SIZES).2 = some c3) :
    (scriptRun e).exit = 1 ∧ (scriptRun e).errLines = [procFailMsg c3] := by
  constructor <;>
    simp [scriptRun, mainRun, hconv, hcargo, hver, hdesk, hicon, hmeta, hd1, hd2, hnb, hic]

theorem ld_fail_run (e : Env) (v : String)
    (hconv : e.convertOnPath = true) (hcargo : e.cargoOnPath = true)
    (hver : resolveVersion e.versionEnv e.cargoToml = some v)
    (hdesk : e.desktopFileExists = true) (hicon : e.iconExists = true)
    (hmeta : e.metadataExists = true)
    (hd1 : (d1run e).exit = none) (hd2 : (d2run e).exit = none)
    (hnb : ¬(e.binOk = false ∧ e.cargoBuildExit ≠ 0))
    (hic : (iconLoop e.convertExit (resolvedIconSrc e) SIZES).2 = none)
    (hld : e.linuxdeployExit ≠ 0) :
    (scriptRun e).exit = 1 ∧ (scriptRun e).errLines = [procFailMsg e.linuxdeployExit] := by
  constructor <;>
    simp [scriptRun, mainRun, hconv, hcargo, hver, hdesk, hicon, hmeta, hd1, hd2, hnb,
      hic, hld]

theorem at_fail_run (e : Env) (v : String)
    (hconv : e.convertOnPath = true) (hcargo : e.cargoOnPath = true)
    (hver : resolveVersion e.versionEnv e.cargoToml = some v)
    (hdesk : e.desktopFileExists = true) (hicon : e.iconExists = true)
    (hmeta : e.metadataExists = true)
    (hd1 : (d1run e).exit = none) (hd2 : (d2run e).exit = none)
    (hnb : ¬(e.binOk = false ∧ e.cargoBuildExit ≠ 0))
    (hic : (iconLoop e.convertExit (resolvedIconSrc e) SIZES).2 = none)
    (hld : e.linuxdeployExit = 0) (hat : e.appimagetoolExit ≠ 0) :
    (scriptRun e).exit = 1 ∧ (scriptRun e).errLines = [procFailMsg e.appimagetoolExit] := by
  constructor <;>
    simp [scriptRun, mainRun, hconv, hcargo, hver, hdesk, hicon, hmeta, hd1, hd2, hnb,
      hic, hld, hat]

theorem success_slim (e : Env) (v : String)
    (hconv : e.convertOnPath = true) (hcargo : e.cargoOnPath = true)
    (hver : resolveVersion e.versionEnv e.cargoToml = some v)
    (hdesk : e.desktopFileExists = true) (hicon : e.iconExists = true)
    (hmeta : e.metadataExists = true)
    (hd1 : (d1run e).exit = none) (hd2 : (d2run e).exit = none)
    (hnb : ¬(e.binOk = false ∧ e.cargoBuildExit ≠ 0))
    (hic : (iconLoop e.convertExit (resolvedIconSrc e) SIZES).2 = none)
    (hld : e.linuxdeployExit = 0) (hat : e.appimagetoolExit = 0) :
    (scriptRun e).exit = 0 ∧ (scriptRun e).errLines = []
    ∧ Event.printCreated (resolvedOutput e v) ∈ (scriptRun e).events
    ∧ ("Created " ++ resolvedOutput e v) ∈ (scriptRun e).outLines := by
  refine ⟨?_, ?_, ?_, ?_⟩ <;>
    simp [scriptRun, mainRun, hconv, hcargo, hver, hdesk, hicon, hmeta, hd1, hd2, hnb,
      hic, hld, hat]

/-- C6: the process exit code is 0 exactly on a successful run — one that
surfaces no error line — in which case the final output path is printed;
every fatal failure exits with code 1 (never the failing tool's own code),
and when the build or one of the two helper tools returns a nonzero code
`c`, the stderr message embeds that code as `Command failed (c)` while the
script's exit code stays 1. -/
theorem claim_C6 (e : Env) :
    ((scriptRun e).exit = 0 ∨ (scriptRun e).exit = 1)
    ∧ ((scriptRun e).exit = 0 ↔ (scriptRun e).errLines = [])
    ∧ ((scriptRun e).exit = 0 →
        ∃ p, Event.printCreated p ∈ (scriptRun e).events
          ∧ ("Created " ++ p) ∈ (scriptRun e).outLines)
    ∧ (∀ v, e.convertOnPath = true → e.cargoOnPath = true →
        resolveVersion e.versionEnv e.cargoToml = some v →
        e.desktopFileExists = true → e.iconExists = true → e.metadataExists = true →
        (d1run e).exit = none → (d2run e).exit = none →
        e.binOk = false → e.cargoBuildExit ≠ 0 →
          (scriptRun e).exit = 1 ∧ procFailMsg e.cargoBuildExit ∈ (scriptRun e).errLines)
    ∧ (∀ v, e.convertOnPath = true → e.cargoOnPath = true →
        resolveVersion e.versionEnv e.cargoToml = some v →
        e.desktopFileExists = true → e.iconExists = true → e.metadataExists = true →
        (d1run e).exit = none → (d2run e).exit = none →
        ¬(e.binOk = false ∧ e.cargoBuildExit ≠ 0) →
        (iconLoop e.convertExit (resolvedIconSrc e) SIZES).2 = none →
        e.linuxdeployExit ≠ 0 →
          (scriptRun e).exit = 1
          ∧ procFailMsg e.linuxdeployExit ∈ (scriptRun e).errLines)
    ∧ (∀ v, e.convertOnPath = true → e.cargoOnPath = true →
        resolveVersion e.versionEnv e.cargoToml = some v →
        e.desktopFileExists = true → e.iconExists = true → e.metadataExists = true →
        (d1run e).exit = none → (d2run e).exit = none →
        ¬(e.binOk = false ∧ e.cargoBuildExit ≠ 0) →
        (iconLoop e.convertExit (resolvedIconSrc e) SIZES).2 = none →
        e.linuxdeployExit = 0 → e.appimagetoolExit ≠ 0 →
          (scriptRun e).exit = 1
          ∧ procFailMsg e.appimagetoolExit ∈ (scriptRun e).errLines) := by
  have key : ((scriptRun e).exit = 0 ∧ (scriptRun e).errLines = []
      ∧ ∃ p, Event.printCreated p ∈ (scriptRun e).events
          ∧ ("Created " ++ p) ∈ (scriptRun e).outLines)
      ∨ ((scriptRun e).exit = 1 ∧ (scriptRun e).errLines ≠ []) := by
    cases hconv : e.convertOnPath with
    | false =>
      right
      constructor <;> simp [scriptRun, hconv]
    | true =>
    cases hcargo : e.cargoOnPath with
    | false =>
      right
      constructor <;> simp [scriptRun, hconv, hcargo]
    | true =>
    rcases hver : resolveVersion e.versionEnv e.cargoToml with _ | v
    · right
      constructor <;> simp [scriptRun, mainRun, hconv, hcargo, hver, dieRun]
    cases hdesk : e.desktopFileExists with
    | false =>
      right
      constructor <;> simp [scriptRun, mainRun, hconv, hcargo, hver, hdesk, dieRun]
    | true =>
    cases hicon : e.iconExists with
    | false =>
      right
      constructor <;> simp [scriptRun, mainRun, hconv, hcargo, hver, hdesk, hicon, dieRun]
    | true =>
    cases hmeta : e.metadataExists with
    | false =>
      right
      constructor <;>
        simp [scriptRun, mainRun, hconv, hcargo, hver, hdesk, hicon, hmeta, dieRun]
    | true =>
    rcases hd1 : (d1run e).exit with _ | c1
    · rcases hd2 : (d2run e).exit with _ | c2
      · by_cases hb : e.binOk = false ∧ e.cargoBuildExit ≠ 0
        · obtain ⟨hx, -, herr⟩ :=
            build_fail_run e v hconv hcargo hver hdesk hicon hmeta hd1 hd2 hb
          right
          rw [hx, herr]
          simp
        · rcases hic : (iconLoop e.convertExit (resolvedIconSrc e) SIZES).2 with _ | c3
          · by_cases hld : e.linuxdeployExit = 0
            · by_cases hat : e.appimagetoolExit = 0
              · obtain ⟨hx, herr, hm1, hm2⟩ := success_slim e v hconv hcargo hver hdesk
                  hicon hmeta hd1 hd2 hb hic hld hat
                exact Or.inl ⟨hx, herr, resolvedOutput e v, hm1, hm2⟩
              · obtain ⟨hx, herr⟩ := at_fail_run e v hconv hcargo hver hdesk hicon hmeta
                  hd1 hd2 hb hic hld hat
                right
                rw [hx, herr]
                simp
            · obtain ⟨hx, herr⟩ := ld_fail_run e v hconv hcargo hver hdesk hicon hmeta
                hd1 hd2 hb hic hld
              right
              rw [hx, herr]
              simp
          · obtain ⟨hx, herr⟩ := icon_fail_run e v c3 hconv hcargo hver hdesk hicon hmeta
              hd1 hd2 hb hic
            right
            rw [hx, herr]
            simp
      · have hrun := d2fail_run e v c2 hconv hcargo hver hdesk hicon hmeta hd1 hd2
        have hc2 : c2 = 1 := by
          rcases download_tool_exit01 (resolvedAtUrl e) (resolvedAtPath e)
            e.appimagetoolFile e.dlOracle2 with h | h
          · rw [d2run] at hd2
            rw [hd2] at h
            simp at h
          · rw [d2run] at hd2
            rw [hd2] at h
            exact Option.some.inj h
        subst hc2
        right
        rw [hrun]
        refine ⟨rfl, ?_⟩
        have := dl_err_of_exit (by rw [d2run] at hd2; exact hd2)
        simpa [d2run] using this
    · have hrun := d1fail_run e v c1 hconv hcargo hver hdesk hicon hmeta hd1
      have hc1 : c1 = 1 := by
        rcases download_tool_exit01 (resolvedLdUrl e) (resolvedLdPath e)
          e.linuxdeployFile e.dlOracle1 with h | h
        · rw [d1run] at hd1
          rw [hd1] at h
          simp at h
        · rw [d1run] at hd1
          rw [hd1] at h
          exact Option.some.inj h
      subst hc1
      right
      rw [hrun]
      refine ⟨rfl, ?_⟩
      have := dl_err_of_exit (by rw [d1run] at hd1; exact hd1)
      simpa [d1run] using this
  refine ⟨?_, ?_, ?_, ?_, ?_, ?_⟩
  · rcases key with ⟨h, -⟩ | ⟨h, -⟩
    · exact Or.inl h
    · exact Or.inr h
  · rcases key with ⟨hx, he, -⟩ | ⟨hx, he⟩
    · exact ⟨fun _ => he, fun _ => hx⟩
    · constructor
      · intro h0
        rw [hx] at h0
        simp at h0
      · intro h0
        exact absurd h0 he
  · rcases key with ⟨hx, -, hp⟩ | ⟨hx, -⟩
    · exact fun _ => hp
    · intro h0
      rw [hx] at h0
      simp at h0
  · intro v hconv hcargo hver hdesk hicon hmeta hd1 hd2 hb hbe
    obtain ⟨hx, -, herr⟩ :=
      build_fail_run e v hconv hcargo hver hdesk hicon hmeta hd1 hd2 ⟨hb, hbe⟩
    rw [hx, herr]
    simp
  · intro v hconv hcargo hver hdesk hicon hmeta hd1 hd2 hnb hic hld
    obtain ⟨hx, herr⟩ :=
      ld_fail_run e v hconv hcargo hver hdesk hicon hmeta hd1 hd2 hnb hic hld
    rw [hx, herr]
    simp
  · intro v hconv hcargo hver hdesk hicon hmeta hd1 hd2 hnb hic hld hat
    obtain ⟨hx, herr⟩ :=
      at_fail_run e v hconv hcargo hver hdesk hicon hmeta hd1 hd2 hnb hic hld hat
    rw [hx, herr]
    simp

/-- Witness for C6: the all-good run exits 0 with empty stderr; when
helper tool #2 exits 7 the script exits 1 with `Command failed (7)` on
stderr. -/
theorem claim_C6_witness :
    ((scriptRun envGood).exit = 0 ∨ (scriptRun envGood).exit = 1)
    ∧ ((scriptRun envGood).exit = 0 ↔ (scriptRun envGood).errLines = [])
    ∧ ((scriptRun envAtFail).exit = 1
        ∧ procFailMsg 7 ∈ (scriptRun envAtFail).errLines) :=
  ⟨(claim_C6 envGood).1, (claim_C6 envGood).2.1,
   (claim_C6 envAtFail).2.2.2.2.2 "1.2.3" rfl rfl rfl rfl rfl rfl rfl rfl
     (by simp [envAtFail, envGood]) rfl rfl (by decide)⟩
